import Mathlib

/-!
# Verification of the cursor-usage aggregation/rendering pipeline

Shallow embedding of the `cursor_usage` Python package
(`src/cursor_usage/{models,aggregator,formatter,parser,renderer,cli}.py`)
and proofs about its specification claims.

Modelling conventions:
* Python `int` token counters are `Nat` (the pydantic models constrain them
  with `ge=0`; the parser validates before constructing an event).
* `decimal.Decimal` values are `Dec`: an integer coefficient with a decimal
  scale, `value = val / 10^scale`.  Decimal addition is exact and keeps the
  smaller exponent (the larger scale), which `Dec.add` reproduces, so sums
  of the same multiset of decimals agree both numerically and structurally.
* Python `dict[str, T]` is an insertion-ordered association list
  `List (String × T)` with unique keys; update-in-place-or-append mirrors
  the source's `if k not in d: d[k] = T()` followed by in-place `+=`.
* Python `set[str]` is a duplicate-free `List String`; only membership is
  observable (the renderer sorts before display).
* Python `sorted(xs, key=k)` (a stable sort ascending by `k`) is
  `List.insertionSort` with the reflexive relation `k a ≤ k b`, which
  inserts an earlier element before a later tie exactly as a stable sort
  does; `sorted(xs, key=k, reverse=True)` uses `k b ≤ k a`.
* Python string comparison is the lexicographic code-point order, which is
  Mathlib's linear order on `String`.
-/

namespace CursorUsage

/-! ## decimal.Decimal -/

/-- Exact decimal number `val / 10^scale` (the coefficient/exponent pair a
`decimal.Decimal` stores; `scale` is the negated exponent). -/
@[ext]
structure Dec where
  val : Int
  scale : Nat
deriving DecidableEq

instance : Zero Dec := ⟨⟨0, 0⟩⟩

/-- Decimal addition: align both coefficients to the larger scale (the
smaller exponent) and add; the result keeps that scale, exactly as
`decimal` addition does. -/
instance : Add Dec :=
  ⟨fun a b =>
    let m := max a.scale b.scale
    ⟨a.val * (10 : Int) ^ (m - a.scale) + b.val * (10 : Int) ^ (m - b.scale), m⟩⟩

@[simp] theorem Dec.add_val (a b : Dec) :
    (a + b).val = a.val * (10 : Int) ^ (max a.scale b.scale - a.scale) +
      b.val * (10 : Int) ^ (max a.scale b.scale - b.scale) := rfl

@[simp] theorem Dec.add_scale (a b : Dec) :
    (a + b).scale = max a.scale b.scale := rfl

@[simp] theorem Dec.zero_val : (0 : Dec).val = 0 := rfl

@[simp] theorem Dec.zero_scale : (0 : Dec).scale = 0 := rfl

/-- Rescaling in two hops is rescaling in one. -/
theorem Dec.align_align (v : Int) (s m m' : Nat) (h1 : s ≤ m) (h2 : m ≤ m') :
    v * (10 : Int) ^ (m - s) * (10 : Int) ^ (m' - m) = v * (10 : Int) ^ (m' - s) := by
  rw [mul_assoc, ← pow_add]
  have h3 : m - s + (m' - m) = m' - s := by omega
  rw [h3]

instance : AddCommMonoid Dec where
  add_assoc a b c := by
    ext
    · simp only [Dec.add_val, Dec.add_scale]
      rw [add_mul, add_mul,
        Dec.align_align a.val a.scale (max a.scale b.scale)
          (max (max a.scale b.scale) c.scale) (le_max_left _ _) (le_max_left _ _),
        Dec.align_align b.val b.scale (max a.scale b.scale)
          (max (max a.scale b.scale) c.scale) (le_max_right _ _) (le_max_left _ _),
        Dec.align_align b.val b.scale (max b.scale c.scale)
          (max a.scale (max b.scale c.scale)) (le_max_left _ _) (le_max_right _ _),
        Dec.align_align c.val c.scale (max b.scale c.scale)
          (max a.scale (max b.scale c.scale)) (le_max_right _ _) (le_max_right _ _)]
      rw [max_assoc]
      ring
    · simp [max_assoc]
  zero_add a := by
    ext
    · simp
    · simp
  add_zero a := by
    ext
    · simp
    · simp
  add_comm a b := by
    ext
    · simp only [Dec.add_val, Dec.add_scale]
      rw [max_comm]
      ring
    · simp [max_comm]
  nsmul := nsmulRec

/-- Numeric order on decimals (cross-scaled integer comparison); this is
how `Decimal` comparisons behave, independent of representation scale. -/
def Dec.le (a b : Dec) : Prop :=
  a.val * (10 : Int) ^ b.scale ≤ b.val * (10 : Int) ^ a.scale

instance : ∀ a b : Dec, Decidable (Dec.le a b) := fun a b =>
  inferInstanceAs
    (Decidable (a.val * (10 : Int) ^ b.scale ≤ b.val * (10 : Int) ^ a.scale))

/-! ## models.py: ModelStats / UserStats

`ModelStats` and `UserStats` are two structurally identical pydantic models
(six accumulators, default zero).  They are embedded as one structure with
two names. -/

/-- The six accumulators shared by `ModelStats` and `UserStats`
(and reused for the top-level accumulators of `AggregatedStats`). -/
@[ext]
structure Stats6 where
  input_tokens : Nat
  output_tokens : Nat
  cache_create : Nat
  cache_read : Nat
  total_tokens : Nat
  cost : Dec
deriving DecidableEq

abbrev ModelStats := Stats6
abbrev UserStats := Stats6

instance : Zero Stats6 := ⟨⟨0, 0, 0, 0, 0, 0⟩⟩

instance : Add Stats6 :=
  ⟨fun a b =>
    ⟨a.input_tokens + b.input_tokens, a.output_tokens + b.output_tokens,
      a.cache_create + b.cache_create, a.cache_read + b.cache_read,
      a.total_tokens + b.total_tokens, a.cost + b.cost⟩⟩

@[simp] theorem Stats6.add_input (a b : Stats6) :
    (a + b).input_tokens = a.input_tokens + b.input_tokens := rfl

@[simp] theorem Stats6.add_output (a b : Stats6) :
    (a + b).output_tokens = a.output_tokens + b.output_tokens := rfl

@[simp] theorem Stats6.add_cache_create (a b : Stats6) :
    (a + b).cache_create = a.cache_create + b.cache_create := rfl

@[simp] theorem Stats6.add_cache_read (a b : Stats6) :
    (a + b).cache_read = a.cache_read + b.cache_read := rfl

@[simp] theorem Stats6.add_total (a b : Stats6) :
    (a + b).total_tokens = a.total_tokens + b.total_tokens := rfl

@[simp] theorem Stats6.add_cost (a b : Stats6) :
    (a + b).cost = a.cost + b.cost := rfl

@[simp] theorem Stats6.zero_input : (0 : Stats6).input_tokens = 0 := rfl

@[simp] theorem Stats6.zero_output : (0 : Stats6).output_tokens = 0 := rfl

@[simp] theorem Stats6.zero_cache_create : (0 : Stats6).cache_create = 0 := rfl

@[simp] theorem Stats6.zero_cache_read : (0 : Stats6).cache_read = 0 := rfl

@[simp] theorem Stats6.zero_total : (0 : Stats6).total_tokens = 0 := rfl

@[simp] theorem Stats6.zero_cost : (0 : Stats6).cost = 0 := rfl

instance : AddCommMonoid Stats6 where
  add_assoc a b c := by ext <;> simp [add_assoc]
  zero_add a := by ext <;> simp
  add_zero a := by ext <;> simp
  add_comm a b := by ext <;> simp [add_comm]
  nsmul := nsmulRec

/-! ## models.py: UsageEvent -/

/-- Naive datetime as produced by `datetime.fromisoformat` after the parser
has stripped any trailing `Z` and any `+`-offset (models.py stores a
`datetime`; only year/month feed `month_key`). -/
@[ext]
structure PyDateTime where
  year : Nat
  month : Nat
  day : Nat
  hour : Nat
  minute : Nat
  second : Nat
  microsecond : Nat
deriving DecidableEq

/-- One validated CSV row (`UsageEvent` in models.py). -/
@[ext]
structure UsageEvent where
  date : PyDateTime
  user : String
  kind : String
  model : String
  max_mode : Bool
  cache_write : Nat
  input_no_cache : Nat
  cache_read : Nat
  output_tokens : Nat
  total_tokens : Nat
  cost : Dec
deriving DecidableEq

/-- Left-pad the decimal digits of `n` with zeros to width `w`
(the behaviour of `strftime` field formatting). -/
def padZeros (w : Nat) (n : Nat) : String :=
  String.mk (List.replicate (w - (toString n).length) '0') ++ toString n

/-- `UsageEvent.month_key`: `self.date.strftime("%Y-%m")`. -/
def UsageEvent.month_key (e : UsageEvent) : String :=
  padZeros 4 e.date.year ++ "-" ++ padZeros 2 e.date.month

/-- ASCII lowering of one character (executable model of `str.lower` on
the ASCII strings these rules target). -/
def lowerChar (c : Char) : Char :=
  if 65 ≤ c.toNat ∧ c.toNat ≤ 90 then Char.ofNat (c.toNat + 32) else c

/-- Executable model of Python `str.lower`. -/
def strLower (s : String) : String := String.mk (s.toList.map lowerChar)

/-- Is `needle` a prefix of `hay`? (executable, structural). -/
def startsWithChars : List Char → List Char → Bool
  | [], _ => true
  | _ :: _, [] => false
  | a :: as, b :: bs => a = b && startsWithChars as bs

/-- Does `needle` occur as a contiguous run in `hay`? (executable,
structural). -/
def occursWithin (needle : List Char) : List Char → Bool
  | [] => startsWithChars needle []
  | b :: bs => startsWithChars needle (b :: bs) || occursWithin needle bs

/-- Python's substring test `needle in hay`. -/
def inStr (needle hay : String) : Bool := occursWithin needle.toList hay.toList

/-- `UsageEvent.normalized_model`, as a function of the raw model string. -/
def normalized_model (model : String) : String :=
  let model_lower := strLower model
  if inStr "haiku" model_lower then "haiku-4-5"
  else if inStr "opus" model_lower then "opus-4-5"
  else if inStr "sonnet" model_lower then "sonnet-4-5"
  else if model_lower = "gpt-5.2" then "gpt-5-2"
  else model

/-- `event.normalized_model` (property on the event). -/
def UsageEvent.normalized_model (e : UsageEvent) : String :=
  CursorUsage.normalized_model e.model

/-! ## models.py: AggregatedStats -/

/-- The six event fields in accumulator order: `add` and the per-model /
per-user bumps all add exactly these amounts. -/
def statsOfEvent (e : UsageEvent) : Stats6 :=
  ⟨e.input_no_cache, e.output_tokens, e.cache_write, e.cache_read,
    e.total_tokens, e.cost⟩

/-- Python's `if k not in d: d[k] = Zero()` followed by six in-place `+=`
on `d[k]`: update the (unique) entry for `k`, or append a fresh one. -/
def bumpStats (k : String) (inc : Stats6) :
    List (String × Stats6) → List (String × Stats6)
  | [] => [(k, 0 + inc)]
  | (k2, s) :: rest =>
      if k2 = k then (k2, s + inc) :: rest else (k2, s) :: bumpStats k inc rest

/-- `d[k]` with a zero default (dict lookup; keys are unique so first
match is the entry). -/
def lookupStats (d : List (String × Stats6)) (k : String) : Stats6 :=
  match d.lookup k with
  | some s => s
  | none => 0

/-- Field-wise sum of the values of a stats map. -/
def sumSnd (d : List (String × Stats6)) : Stats6 :=
  (d.map Prod.snd).sum

/-- `AggregatedStats` from models.py: one reporting bucket. -/
@[ext]
structure AggregatedStats where
  month : String
  user : Option String := none
  models : List String := []
  user_stats : List (String × UserStats) := []
  model_stats : List (String × ModelStats) := []
  input_tokens : Nat := 0
  output_tokens : Nat := 0
  cache_create : Nat := 0
  cache_read : Nat := 0
  total_tokens : Nat := 0
  cost : Dec := 0
deriving DecidableEq

/-- `AggregatedStats(month=m)` with all defaults. -/
def mkAggregatedStats (month : String) : AggregatedStats :=
  { month := month }

/-- The six top-level accumulators of a bucket. -/
def topStats (b : AggregatedStats) : Stats6 :=
  ⟨b.input_tokens, b.output_tokens, b.cache_create, b.cache_read,
    b.total_tokens, b.cost⟩

/-- `AggregatedStats.add`: fold one event into the bucket (model set,
per-model entry, per-user entry, six top-level sums). -/
def AggregatedStats.add (self : AggregatedStats) (event : UsageEvent) :
    AggregatedStats :=
  let model_name := event.normalized_model
  { self with
    models := if model_name ∈ self.models then self.models
              else self.models ++ [model_name]
    model_stats := bumpStats model_name (statsOfEvent event) self.model_stats
    user_stats := bumpStats event.user (statsOfEvent event) self.user_stats
    input_tokens := self.input_tokens + event.input_no_cache
    output_tokens := self.output_tokens + event.output_tokens
    cache_create := self.cache_create + event.cache_write
    cache_read := self.cache_read + event.cache_read
    total_tokens := self.total_tokens + event.total_tokens
    cost := self.cost + event.cost }

/-- `AggregatedStats.merge`: fold another bucket in.  The source updates
the model set (`self.models.update(other.models)`), merges the per-user
map entry-wise, and adds the six top-level sums; it does NOT touch
`model_stats`. -/
def AggregatedStats.merge (self other : AggregatedStats) : AggregatedStats :=
  { self with
    models := other.models.foldl
      (fun acc m => if m ∈ acc then acc else acc ++ [m]) self.models
    user_stats := other.user_stats.foldl
      (fun acc p => bumpStats p.1 p.2 acc) self.user_stats
    input_tokens := self.input_tokens + other.input_tokens
    output_tokens := self.output_tokens + other.output_tokens
    cache_create := self.cache_create + other.cache_create
    cache_read := self.cache_read + other.cache_read
    total_tokens := self.total_tokens + other.total_tokens
    cost := self.cost + other.cost }

/-! ## aggregator.py -/

/-- The relation `sorted(..., key=lambda s: s.month)` sorts by. -/
def monthLE (a b : AggregatedStats) : Prop := a.month ≤ b.month

instance : DecidableRel monthLE := fun a b =>
  inferInstanceAs (Decidable (a.month ≤ b.month))

instance : IsTotal AggregatedStats monthLE :=
  ⟨fun a b => le_total a.month b.month⟩

instance : IsTrans AggregatedStats monthLE :=
  ⟨fun _ _ _ h1 h2 => le_trans h1 h2⟩

/-- One iteration of the loop body of `aggregate_by_month` on the
insertion-ordered dict `by_month`: `defaultdict` materialises an empty
bucket with `month=""` on first access, the `if ... == ""` check fixes the
label, then `add` folds the event in. -/
def aggStep (e : UsageEvent) :
    List (String × AggregatedStats) → List (String × AggregatedStats)
  | [] =>
      let b := mkAggregatedStats ""
      let b := if b.month = "" then { b with month := e.month_key } else b
      [(e.month_key, b.add e)]
  | (k, b) :: rest =>
      if k = e.month_key then
        let b := if b.month = "" then { b with month := e.month_key } else b
        (k, b.add e) :: rest
      else (k, b) :: aggStep e rest

/-- The fully folded `by_month` dict. -/
def aggFold (events : List UsageEvent) : List (String × AggregatedStats) :=
  events.foldl (fun d e => aggStep e d) []

/-- `aggregate_by_month`: group by `month_key`, then
`sorted(by_month.values(), key=lambda s: s.month)`. -/
def aggregate_by_month (events : List UsageEvent) : List AggregatedStats :=
  List.insertionSort monthLE ((aggFold events).map Prod.snd)

/-- `compute_grand_total`: fold every monthly bucket into an empty
`"Total"` bucket via `merge`, in the given order. -/
def compute_grand_total (monthly_stats : List AggregatedStats) :
    AggregatedStats :=
  monthly_stats.foldl AggregatedStats.merge (mkAggregatedStats "Total")

/-! ## Lemmas: stat-map bumps and sums -/

theorem sumSnd_nil : sumSnd [] = 0 := rfl

theorem sumSnd_cons (p : String × Stats6) (d : List (String × Stats6)) :
    sumSnd (p :: d) = p.2 + sumSnd d := by
  simp [sumSnd]

/-- Bumping an entry (or appending a fresh one) adds the increment to the
field-wise sum of the map's values. -/
theorem sumSnd_bumpStats (k : String) (inc : Stats6) :
    ∀ d : List (String × Stats6), sumSnd (bumpStats k inc d) = sumSnd d + inc
  | [] => by simp [bumpStats, sumSnd]
  | (k2, s) :: rest => by
    by_cases h : k2 = k
    · simp [bumpStats, h, sumSnd_cons, add_assoc, add_comm inc (sumSnd rest)]
    · simp only [bumpStats, h, if_false, sumSnd_cons,
        sumSnd_bumpStats k inc rest]
      rw [add_assoc]

/-- Folding a list of entries into a map via bumps adds the entries' sum. -/
theorem sumSnd_foldl_bump (entries : List (String × Stats6)) :
    ∀ d : List (String × Stats6),
      sumSnd (entries.foldl (fun acc p => bumpStats p.1 p.2 acc) d) =
        sumSnd d + sumSnd entries := by
  induction entries with
  | nil => intro d; simp [sumSnd]
  | cons p rest ih =>
      intro d
      simp only [List.foldl_cons, ih, sumSnd_bumpStats, sumSnd_cons, add_assoc]

/-- The first matching entry after a bump: the bumped key gains `inc`,
every other key reads as before. -/
theorem lookupStats_bumpStats (k k' : String) (inc : Stats6)
    (d : List (String × Stats6)) :
    lookupStats (bumpStats k inc d) k' =
      lookupStats d k' + (if k' = k then inc else 0) := by
  induction d with
  | nil =>
      by_cases h : k' = k
      · subst h
        simp [bumpStats, lookupStats, List.lookup]
      · have hb : (k' == k) = false := beq_eq_false_iff_ne.mpr h
        simp [bumpStats, lookupStats, List.lookup, hb, h]
  | cons p rest ih =>
      obtain ⟨k2, s⟩ := p
      by_cases h2 : k2 = k
      · subst h2
        by_cases h' : k' = k2
        · subst h'
          simp [bumpStats, lookupStats, List.lookup]
        · have hb : (k' == k2) = false := beq_eq_false_iff_ne.mpr h'
          simp [bumpStats, lookupStats, List.lookup, hb, h']
      · have hstep : bumpStats k inc ((k2, s) :: rest) =
            (k2, s) :: bumpStats k inc rest := by
          simp [bumpStats, h2]
        rw [hstep]
        by_cases h' : k' = k2
        · subst h'
          simp [lookupStats, List.lookup, h2]
        · have hb : (k' == k2) = false := beq_eq_false_iff_ne.mpr h'
          have l1 : lookupStats ((k2, s) :: bumpStats k inc rest) k' =
              lookupStats (bumpStats k inc rest) k' := by
            simp [lookupStats, List.lookup, hb]
          have l2 : lookupStats ((k2, s) :: rest) k' = lookupStats rest k' := by
            simp [lookupStats, List.lookup, hb]
          rw [l1, l2, ih]

/-! ## Lemmas: add and merge -/

theorem topStats_mk (m : String) : topStats (mkAggregatedStats m) = 0 := rfl

theorem topStats_add (b : AggregatedStats) (e : UsageEvent) :
    topStats (b.add e) = topStats b + statsOfEvent e := rfl

theorem month_add (b : AggregatedStats) (e : UsageEvent) :
    (b.add e).month = b.month := rfl

theorem model_stats_add (b : AggregatedStats) (e : UsageEvent) :
    (b.add e).model_stats =
      bumpStats e.normalized_model (statsOfEvent e) b.model_stats := rfl

theorem user_stats_add (b : AggregatedStats) (e : UsageEvent) :
    (b.add e).user_stats = bumpStats e.user (statsOfEvent e) b.user_stats := rfl

theorem topStats_merge (a b : AggregatedStats) :
    topStats (a.merge b) = topStats a + topStats b := rfl

theorem month_merge (a b : AggregatedStats) :
    (a.merge b).month = a.month := rfl

theorem model_stats_merge (a b : AggregatedStats) :
    (a.merge b).model_stats = a.model_stats := rfl

theorem user_stats_merge_sum (a b : AggregatedStats) :
    sumSnd (a.merge b).user_stats =
      sumSnd a.user_stats + sumSnd b.user_stats := by
  simpa [AggregatedStats.merge] using
    sumSnd_foldl_bump b.user_stats a.user_stats

/-- Membership in the folded set-union used by `merge` for the model set. -/
theorem mem_foldl_setInsert (l : List String) :
    ∀ (acc : List String) (x : String),
      x ∈ l.foldl (fun acc m => if m ∈ acc then acc else acc ++ [m]) acc ↔
        x ∈ acc ∨ x ∈ l := by
  induction l with
  | nil => intro acc x; simp
  | cons m rest ih =>
      intro acc x
      simp only [List.foldl_cons, ih]
      by_cases hm : m ∈ acc
      · simp only [hm, if_true, List.mem_cons]
        constructor
        · rintro (h | h)
          · exact Or.inl h
          · exact Or.inr (Or.inr h)
        · rintro (h | h | h)
          · exact Or.inl h
          · exact Or.inl (h ▸ hm)
          · exact Or.inr h
      · simp only [hm, if_false, List.mem_append, List.mem_singleton,
          List.mem_cons]
        tauto

theorem mem_models_merge (a b : AggregatedStats) (x : String) :
    x ∈ (a.merge b).models ↔ x ∈ a.models ∨ x ∈ b.models :=
  mem_foldl_setInsert b.models a.models x

/-- A key absent from a map reads as zero. -/
theorem lookupStats_eq_zero_of_not_mem (d : List (String × Stats6))
    (k : String) (h : k ∉ d.map Prod.fst) : lookupStats d k = 0 := by
  induction d with
  | nil => rfl
  | cons p rest ih =>
      simp only [List.map_cons, List.mem_cons] at h
      push_neg at h
      have hb : (k == p.1) = false := beq_eq_false_iff_ne.mpr h.1
      obtain ⟨k2, s⟩ := p
      simp only [lookupStats, List.lookup, hb] at ih ⊢
      exact ih h.2

/-- Folding a duplicate-free entry list into a map adds entry-wise: each
key reads as the sum of its old value and its value among the entries. -/
theorem lookupStats_foldl_bump (entries : List (String × Stats6))
    (hnodup : (entries.map Prod.fst).Nodup) :
    ∀ (d : List (String × Stats6)) (u : String),
      lookupStats (entries.foldl (fun acc p => bumpStats p.1 p.2 acc) d) u =
        lookupStats d u + lookupStats entries u := by
  induction entries with
  | nil => intro d u; simp [lookupStats, List.lookup]
  | cons p rest ih =>
      intro d u
      obtain ⟨k, s⟩ := p
      simp only [List.map_cons, List.nodup_cons] at hnodup
      simp only [List.foldl_cons, ih hnodup.2, lookupStats_bumpStats]
      by_cases hu : u = k
      · subst hu
        have h0 : lookupStats rest u = 0 :=
          lookupStats_eq_zero_of_not_mem rest u hnodup.1
        rw [h0]
        simp [lookupStats, List.lookup]
      · have hb : (u == k) = false := beq_eq_false_iff_ne.mpr hu
        simp only [lookupStats, List.lookup, hb, if_neg hu, add_zero]

/-! ## Lemmas: the aggregation fold -/

theorem topStats_monthFix (b : AggregatedStats) (k : String) :
    topStats (if b.month = "" then { b with month := k } else b) =
      topStats b := by
  split <;> rfl

theorem model_stats_monthFix (b : AggregatedStats) (k : String) :
    (if b.month = "" then { b with month := k } else b).model_stats =
      b.model_stats := by
  split <;> rfl

theorem user_stats_monthFix (b : AggregatedStats) (k : String) :
    (if b.month = "" then { b with month := k } else b).user_stats =
      b.user_stats := by
  split <;> rfl

/-- The `defaultdict`-materialised empty bucket with its label fixed is
just an empty bucket with that label. -/
theorem aggStep_nil (e : UsageEvent) :
    aggStep e [] = [(e.month_key, (mkAggregatedStats e.month_key).add e)] :=
  rfl

/-- `aggStep` on a non-matching head passes the head through. -/
theorem aggStep_cons_ne (e : UsageEvent) (k : String) (b : AggregatedStats)
    (rest : List (String × AggregatedStats)) (h : ¬k = e.month_key) :
    aggStep e ((k, b) :: rest) = (k, b) :: aggStep e rest := by
  simp [aggStep, h]

/-- `aggStep` on the matching head folds the event into that bucket. -/
theorem aggStep_cons_eq (e : UsageEvent) (k : String) (b : AggregatedStats)
    (rest : List (String × AggregatedStats)) (h : k = e.month_key) :
    aggStep e ((k, b) :: rest) =
      (k, (if b.month = "" then { b with month := e.month_key } else b).add e)
        :: rest := by
  simp [aggStep, h]

/-- Field-wise sum of the top-level accumulators over the dict's values. -/
def topSum (d : List (String × AggregatedStats)) : Stats6 :=
  (d.map (fun p => topStats p.2)).sum

/-- One aggregation step adds the event's six fields to the dict-wide sum
of top-level accumulators. -/
theorem topSum_aggStep (e : UsageEvent) :
    ∀ d : List (String × AggregatedStats),
      topSum (aggStep e d) = topSum d + statsOfEvent e
  | [] => by
      simp [aggStep_nil, topSum, topStats_add, topStats_mk]
  | (k, b) :: rest => by
      by_cases h : k = e.month_key
      · rw [aggStep_cons_eq e k b rest h]
        simp only [topSum, List.map_cons, List.sum_cons, topStats_add,
          topStats_monthFix]
        rw [add_right_comm]
      · rw [aggStep_cons_ne e k b rest h]
        have ih := topSum_aggStep e rest
        simp only [topSum, List.map_cons, List.sum_cons] at ih ⊢
        rw [ih, ← add_assoc]

/-- Folding any event list into any dict adds the events' fields to the
dict-wide sum of top-level accumulators. -/
theorem topSum_foldl (events : List UsageEvent) :
    ∀ d : List (String × AggregatedStats),
      topSum (events.foldl (fun d e => aggStep e d) d) =
        topSum d + (events.map statsOfEvent).sum := by
  induction events with
  | nil => intro d; simp [topSum]
  | cons e rest ih =>
      intro d
      simp only [List.foldl_cons, List.map_cons, List.sum_cons, ih,
        topSum_aggStep, add_assoc]

/-- The per-bucket partition invariant: the six top-level accumulators
equal the field-wise sum over the per-model map and, independently, over
the per-user map. -/
def BucketPartition (b : AggregatedStats) : Prop :=
  topStats b = sumSnd b.model_stats ∧ topStats b = sumSnd b.user_stats

theorem bucketPartition_mk (m : String) :
    BucketPartition (mkAggregatedStats m) := ⟨rfl, rfl⟩

theorem bucketPartition_add {b : AggregatedStats} (e : UsageEvent)
    (h : BucketPartition b) : BucketPartition (b.add e) := by
  constructor
  · rw [topStats_add, model_stats_add, sumSnd_bumpStats, h.1]
  · rw [topStats_add, user_stats_add, sumSnd_bumpStats, h.2]

theorem bucketPartition_monthFix {b : AggregatedStats} (k : String)
    (h : BucketPartition b) :
    BucketPartition (if b.month = "" then { b with month := k } else b) := by
  constructor
  · rw [topStats_monthFix, model_stats_monthFix]
    exact h.1
  · rw [topStats_monthFix, user_stats_monthFix]
    exact h.2

/-- Every bucket in the dict satisfies the partition invariant, preserved
by one aggregation step. -/
theorem bucketPartition_aggStep (e : UsageEvent) :
    ∀ d : List (String × AggregatedStats),
      (∀ p ∈ d, BucketPartition p.2) →
      ∀ p ∈ aggStep e d, BucketPartition p.2
  | [], _, p, hp => by
      rw [aggStep_nil] at hp
      simp only [List.mem_singleton] at hp
      subst hp
      exact bucketPartition_add e (bucketPartition_mk _)
  | (k, b) :: rest, hd, p, hp => by
      by_cases h : k = e.month_key
      · rw [aggStep_cons_eq e k b rest h] at hp
        rcases List.mem_cons.mp hp with h1 | h1
        · subst h1
          exact bucketPartition_add e
            (bucketPartition_monthFix _ (hd (k, b) (List.mem_cons_self _ _)))
        · exact hd p (List.mem_cons_of_mem _ h1)
      · rw [aggStep_cons_ne e k b rest h] at hp
        rcases List.mem_cons.mp hp with h1 | h1
        · subst h1
          exact hd (k, b) (List.mem_cons_self _ _)
        · exact bucketPartition_aggStep e rest
            (fun q hq => hd q (List.mem_cons_of_mem _ hq)) p h1

/-- Every bucket of the fully folded dict satisfies the partition
invariant. -/
theorem bucketPartition_aggFold (events : List UsageEvent) :
    ∀ p ∈ aggFold events, BucketPartition p.2 := by
  have main : ∀ (evs : List UsageEvent) (d : List (String × AggregatedStats)),
      (∀ p ∈ d, BucketPartition p.2) →
      ∀ p ∈ evs.foldl (fun d e => aggStep e d) d, BucketPartition p.2 := by
    intro evs
    induction evs with
    | nil => intro d hd; exact hd
    | cons e rest ih =>
        intro d hd
        exact ih (aggStep e d) (bucketPartition_aggStep e d hd)
  exact main events [] (by intro p hp; cases hp)

/-- Key/label invariant of the `by_month` dict: keys are distinct and each
bucket's `month` equals its key. -/
def DictKeyed (d : List (String × AggregatedStats)) : Prop :=
  (d.map Prod.fst).Nodup ∧ ∀ p ∈ d, p.2.month = p.1

/-- Keys after one step: the old keys plus the event's month key. -/
theorem keys_aggStep (e : UsageEvent) :
    ∀ (d : List (String × AggregatedStats)) (k' : String),
      k' ∈ (aggStep e d).map Prod.fst ↔
        k' ∈ d.map Prod.fst ∨ k' = e.month_key
  | [], k' => by simp [aggStep_nil]
  | (k, b) :: rest, k' => by
      by_cases h : k = e.month_key
      · rw [aggStep_cons_eq e k b rest h]
        subst h
        simp only [List.map_cons, List.mem_cons]
        tauto
      · rw [aggStep_cons_ne e k b rest h]
        simp only [List.map_cons, List.mem_cons, keys_aggStep e rest k']
        tauto

theorem month_monthFix (b : AggregatedStats) (k : String) :
    (if b.month = "" then { b with month := k } else b).month =
      if b.month = "" then k else b.month := by
  split <;> simp_all

theorem dictKeyed_aggStep (e : UsageEvent) :
    ∀ d : List (String × AggregatedStats),
      DictKeyed d → DictKeyed (aggStep e d)
  | [], _ => by
      constructor
      · simp [aggStep_nil]
      · intro p hp
        rw [aggStep_nil] at hp
        simp only [List.mem_singleton] at hp
        subst hp
        rfl
  | (k, b) :: rest, hd => by
      obtain ⟨hnodup, hlabel⟩ := hd
      simp only [List.map_cons, List.nodup_cons] at hnodup
      by_cases h : k = e.month_key
      · rw [aggStep_cons_eq e k b rest h]
        constructor
        · simp only [List.map_cons, List.nodup_cons]
          exact hnodup
        · intro p hp
          rcases List.mem_cons.mp hp with h1 | h1
          · subst h1
            have hb : b.month = k := hlabel (k, b) (List.mem_cons_self _ _)
            simp only [month_add, month_monthFix, hb]
            by_cases hk : k = ""
            · rw [if_pos hk]
              exact h.symm
            · rw [if_neg hk]
              exact hb
          · exact hlabel p (List.mem_cons_of_mem _ h1)
      · rw [aggStep_cons_ne e k b rest h]
        have tail := dictKeyed_aggStep e rest
          ⟨hnodup.2, fun q hq => hlabel q (List.mem_cons_of_mem _ hq)⟩
        constructor
        · simp only [List.map_cons, List.nodup_cons]
          refine ⟨fun hmem => ?_, tail.1⟩
          rcases (keys_aggStep e rest k).mp hmem with hin | heq
          · exact hnodup.1 hin
          · exact h heq
        · intro p hp
          rcases List.mem_cons.mp hp with h1 | h1
          · subst h1
            exact hlabel (k, b) (List.mem_cons_self _ _)
          · exact tail.2 p h1

theorem dictKeyed_aggFold (events : List UsageEvent) :
    DictKeyed (aggFold events) := by
  have main : ∀ (evs : List UsageEvent) (d : List (String × AggregatedStats)),
      DictKeyed d → DictKeyed (evs.foldl (fun d e => aggStep e d) d) := by
    intro evs
    induction evs with
    | nil => intro d hd; exact hd
    | cons e rest ih =>
        intro d hd
        exact ih (aggStep e d) (dictKeyed_aggStep e d hd)
  exact main events [] ⟨List.nodup_nil, by intro p hp; cases hp⟩

theorem keys_aggFold (events : List UsageEvent) (k : String) :
    k ∈ (aggFold events).map Prod.fst ↔
      ∃ e ∈ events, e.month_key = k := by
  have main : ∀ (evs : List UsageEvent) (d : List (String × AggregatedStats)),
      k ∈ (evs.foldl (fun d e => aggStep e d) d).map Prod.fst ↔
        k ∈ d.map Prod.fst ∨ ∃ e ∈ evs, e.month_key = k := by
    intro evs
    induction evs with
    | nil => intro d; simp
    | cons e rest ih =>
        intro d
        simp only [List.foldl_cons, ih, keys_aggStep, List.mem_cons]
        constructor
        · rintro (⟨h | h⟩ | ⟨e2, he2, hk⟩)
          · exact Or.inl h
          · exact Or.inr ⟨e, Or.inl rfl, h.symm⟩
          · exact Or.inr ⟨e2, Or.inr he2, hk⟩
        · rintro (h | ⟨e2, he2 | he2, hk⟩)
          · exact Or.inl (Or.inl h)
          · subst he2
            exact Or.inl (Or.inr hk.symm)
          · exact Or.inr ⟨e2, he2, hk⟩
  simpa using main events []

/-! ## Lemmas: grand total fold and sorting bridge -/

theorem topStats_foldl_merge (l : List AggregatedStats) :
    ∀ init : AggregatedStats,
      topStats (l.foldl AggregatedStats.merge init) =
        topStats init + (l.map topStats).sum := by
  induction l with
  | nil => intro init; simp
  | cons b rest ih =>
      intro init
      simp only [List.foldl_cons, ih, topStats_merge, List.map_cons,
        List.sum_cons, add_assoc]

theorem model_stats_foldl_merge (l : List AggregatedStats) :
    ∀ init : AggregatedStats,
      (l.foldl AggregatedStats.merge init).model_stats = init.model_stats := by
  induction l with
  | nil => intro init; rfl
  | cons b rest ih =>
      intro init
      simp only [List.foldl_cons, ih, model_stats_merge]

theorem month_foldl_merge (l : List AggregatedStats) :
    ∀ init : AggregatedStats,
      (l.foldl AggregatedStats.merge init).month = init.month := by
  induction l with
  | nil => intro init; rfl
  | cons b rest ih =>
      intro init
      simp only [List.foldl_cons, ih, month_merge]

theorem user_sum_foldl_merge (l : List AggregatedStats) :
    ∀ init : AggregatedStats,
      sumSnd (l.foldl AggregatedStats.merge init).user_stats =
        sumSnd init.user_stats + (l.map (fun b => sumSnd b.user_stats)).sum := by
  induction l with
  | nil => intro init; simp
  | cons b rest ih =>
      intro init
      simp only [List.foldl_cons, ih, user_stats_merge_sum, List.map_cons,
        List.sum_cons, add_assoc]

/-- Projecting `total_tokens` out of a `Stats6` sum. -/
theorem sum_total_tokens (l : List Stats6) :
    l.sum.total_tokens = (l.map Stats6.total_tokens).sum := by
  induction l with
  | nil => rfl
  | cons s rest ih => simp [ih]

/-- Sorting is a permutation of the dict values. -/
theorem aggregate_perm (events : List UsageEvent) :
    (aggregate_by_month events).Perm ((aggFold events).map Prod.snd) :=
  List.perm_insertionSort monthLE _

/-- The field-wise sum of the monthly buckets' top-level accumulators is
the field-wise sum over the events. -/
theorem sum_topStats_aggregate (events : List UsageEvent) :
    ((aggregate_by_month events).map topStats).sum =
      (events.map statsOfEvent).sum := by
  have hperm := (aggregate_perm events).map topStats
  rw [hperm.sum_eq, List.map_map]
  have h2 := topSum_foldl events []
  simp only [topSum, aggFold, List.map_nil, List.sum_nil, zero_add] at h2
  exact h2

/-! ## formatter.py -/

/-- Insert a thousands separator before each group of three digits
(digits given most-significant first). -/
def withCommas : List Char → List Char
  | [] => []
  | c :: rest =>
      c :: (if rest.length % 3 = 0 ∧ rest ≠ [] then ',' :: withCommas rest
            else withCommas rest)

/-- `format_number`: Python `f"{value:,}"` on a non-negative int. -/
def format_number (value : Nat) : String :=
  String.mk (withCommas (toString value).toList)

/-- Quantization of a decimal to cents (two decimal places, scaled by
100) with the ROUND_HALF_EVEN rule `Decimal` formatting uses: exact when
the scale is at most 2, otherwise round the dropped digits to the nearest,
ties to the even candidate.  `/` and `%` on `Int` are Euclidean division
with a non-negative remainder. -/
def decCents (v : Dec) : Int :=
  if v.scale ≤ 2 then v.val * (10 : Int) ^ (2 - v.scale)
  else
    let d : Int := (10 : Int) ^ (v.scale - 2)
    let q := v.val / d
    let r := v.val % d
    if 2 * r < d then q
    else if d < 2 * r then q + 1
    else if q % 2 = 0 then q else q + 1

/-- `format_currency`: Python `f"${value:,.2f}"` on a `Decimal`: currency
symbol, thousands grouping, exactly two decimal digits, ROUND_HALF_EVEN at
the second decimal place.  (For the negative values this program never
produces, Python renders `-0.00` for tiny negatives; this model folds the
sign of the rounded cents.) -/
def format_currency (value : Dec) : String :=
  let cents := decCents value
  let n := cents.natAbs
  (if cents < 0 then "$-" else "$") ++
    format_number (n / 100) ++ "." ++ padZeros 2 (n % 100)

/-! ## parser.py -/

/-- The Python exceptions `_parse_row` can raise, with their rendered
`str(e)` message.  `parse_csv_stream` catches `ValueError` (which includes
pydantic's `ValidationError`) and `KeyError`; `decimal.InvalidOperation`
derives from `ArithmeticError` and is NOT caught. -/
inductive PyError where
  | valueError (msg : String)
  | keyError (key : String)
  | invalidOperation (msg : String)
deriving DecidableEq

deriving instance DecidableEq for Except

/-- A CSV row as `csv.DictReader` hands it over: column name to raw text.
`row[k]` raises `KeyError` when the column is absent. -/
def rowGet (row : List (String × String)) (key : String) :
    Except PyError String :=
  match row.lookup key with
  | some v => Except.ok v
  | none => Except.error (PyError.keyError key)

/-- Digit run to number, `none` if empty or non-digit. -/
def parseDigits (cs : List Char) : Option Nat :=
  if cs ≠ [] ∧ cs.all Char.isDigit then
    some (cs.foldl (fun a c => a * 10 + (c.toNat - 48)) 0)
  else none

/-- Model of Python `int(s)`: an optional sign followed by digits;
failures raise `ValueError`.  (The stdlib also allows surrounding
whitespace and underscores; the CSV fields this program reads never use
them.) -/
def pyInt (s : String) : Except PyError Int :=
  let bad : Except PyError Int :=
    Except.error (PyError.valueError ("invalid literal for int: " ++ s))
  match s.toList with
  | '-' :: rest =>
      match parseDigits rest with
      | some n => Except.ok (-(n : Int))
      | none => bad
  | '+' :: rest =>
      match parseDigits rest with
      | some n => Except.ok (n : Int)
      | none => bad
  | cs =>
      match parseDigits cs with
      | some n => Except.ok (n : Int)
      | none => bad

/-- Model of `decimal.Decimal(s)`: an optional sign, digits with at most
one point, at least one digit; failure raises `InvalidOperation` (which
`parse_csv_stream` does not catch).  (The stdlib also accepts exponent
and special forms; the CSV cost fields this program reads are plain.) -/
def pyDecimal (s : String) : Except PyError Dec :=
  let bad : Except PyError Dec :=
    Except.error (PyError.invalidOperation ("ConversionSyntax: " ++ s))
  let core : List Char → Except PyError Dec := fun cs =>
    let intPart := cs.takeWhile (· ≠ '.')
    let rest := cs.dropWhile (· ≠ '.')
    match rest with
    | [] =>
        match parseDigits intPart with
        | some n => Except.ok ⟨(n : Int), 0⟩
        | none => bad
    | '.' :: fracPart =>
        if (intPart ++ fracPart) ≠ [] ∧ (intPart ++ fracPart).all Char.isDigit
        then
          Except.ok
            ⟨((intPart ++ fracPart).foldl (fun a c => a * 10 + (c.toNat - 48))
                0 : Nat), fracPart.length⟩
        else bad
    | _ => bad
  match s.toList with
  | '-' :: rest =>
      match core rest with
      | Except.ok d => Except.ok ⟨-d.val, d.scale⟩
      | e => e
  | '+' :: rest => core rest
  | cs => core cs

/-- Model of `datetime.fromisoformat` restricted to the shapes this tool
feeds it: `YYYY-MM-DD`, optionally followed by `T` or a space and
`HH:MM:SS`, optionally `.` and a fraction (digits).  Failure raises
`ValueError`. -/
def parseIso (s : String) : Except PyError PyDateTime :=
  let bad : Except PyError PyDateTime :=
    Except.error (PyError.valueError ("Invalid isoformat string: " ++ s))
  match s.toList with
  | y1 :: y2 :: y3 :: y4 :: '-' :: m1 :: m2 :: '-' :: d1 :: d2 :: rest =>
      match parseDigits [y1, y2, y3, y4], parseDigits [m1, m2],
          parseDigits [d1, d2] with
      | some y, some mo, some d =>
          if 1 ≤ mo ∧ mo ≤ 12 ∧ 1 ≤ d ∧ d ≤ 31 then
            match rest with
            | [] => Except.ok ⟨y, mo, d, 0, 0, 0, 0⟩
            | sep :: h1 :: h2 :: ':' :: mi1 :: mi2 :: ':' :: s1 :: s2 :: tl =>
                if sep = 'T' ∨ sep = ' ' then
                  match parseDigits [h1, h2], parseDigits [mi1, mi2],
                      parseDigits [s1, s2] with
                  | some h, some mi, some sec =>
                      if h ≤ 23 ∧ mi ≤ 59 ∧ sec ≤ 59 then
                        match tl with
                        | [] => Except.ok ⟨y, mo, d, h, mi, sec, 0⟩
                        | '.' :: frac =>
                            match parseDigits frac with
                            | some micro =>
                                Except.ok ⟨y, mo, d, h, mi, sec, micro⟩
                            | none => bad
                        | _ => bad
                      else bad
                  | _, _, _ => bad
                else bad
            | _ => bad
          else bad
      | _, _, _ => bad
  | _ => bad

/-- `str.rstrip("Z")`: drop every trailing `Z`. -/
def stripTrailingZ (s : String) : String :=
  String.mk (((s.toList.reverse).dropWhile (· = 'Z')).reverse)

/-- `date_str.split("+")[0]`: the prefix before the first `+`. -/
def beforePlus (s : String) : String :=
  String.mk (s.toList.takeWhile (· ≠ '+'))

/-- `_parse_row`: convert one row dict to a `UsageEvent`, in the source's
evaluation order (Date lookup and parse first, then the remaining
constructor arguments left to right, then pydantic's `ge=0` validation,
whose `ValidationError` is a `ValueError`). -/
def parse_row (row : List (String × String)) : Except PyError UsageEvent := do
  let dateRaw ← rowGet row "Date"
  let dateStr := stripTrailingZ dateRaw
  let dateStr := if dateStr.toList.contains '+' then beforePlus dateStr
                 else dateStr
  let date ← parseIso dateStr
  let user ← rowGet row "User"
  let kind ← rowGet row "Kind"
  let model ← rowGet row "Model"
  let maxModeRaw ← rowGet row "Max Mode"
  let cache_write ← pyInt (← rowGet row "Input (w/ Cache Write)")
  let input_no_cache ← pyInt (← rowGet row "Input (w/o Cache Write)")
  let cache_read ← pyInt (← rowGet row "Cache Read")
  let output_tokens ← pyInt (← rowGet row "Output Tokens")
  let total_tokens ← pyInt (← rowGet row "Total Tokens")
  let cost ← pyDecimal (← rowGet row "Cost")
  if cache_write < 0 ∨ input_no_cache < 0 ∨ cache_read < 0 ∨
      output_tokens < 0 ∨ total_tokens < 0 ∨ cost.val < 0 then
    Except.error (PyError.valueError "validation error: input should be greater than or equal to 0")
  else
    Except.ok
      { date := date, user := user, kind := kind, model := model
        max_mode := strLower maxModeRaw = "yes"
        cache_write := cache_write.toNat
        input_no_cache := input_no_cache.toNat
        cache_read := cache_read.toNat
        output_tokens := output_tokens.toNat
        total_tokens := total_tokens.toNat
        cost := cost }

/-- Does `parse_csv_stream`'s `except (ValueError, KeyError)` clause catch
this exception?  `decimal.InvalidOperation` is an `ArithmeticError`, so it
does not. -/
def caughtByStream : PyError → Bool
  | PyError.valueError _ => true
  | PyError.keyError _ => true
  | PyError.invalidOperation _ => false

/-- The warning `parse_csv_stream` prints to stderr for a skipped row
(`str(e)` of a `KeyError` is the quoted key; quotes are elided in this
model). -/
def warnMessage (row_num : Nat) (e : PyError) : String :=
  "Warning: Skipping row " ++ toString row_num ++ ": " ++
    (match e with
     | PyError.valueError m => m
     | PyError.keyError k => k
     | PyError.invalidOperation m => m)

/-- The loop of `parse_csv_stream`, starting at row number `n`
(`enumerate(reader, start=2)`: the header is file row 1).  An uncaught
exception aborts the whole stream — the caller's `list(...)` then
propagates it and no events are returned. -/
def parse_csv_rows (n : Nat) :
    List (List (String × String)) →
      Except PyError (List UsageEvent × List String)
  | [] => Except.ok ([], [])
  | row :: rest =>
      match parse_row row with
      | Except.ok e =>
          match parse_csv_rows (n + 1) rest with
          | Except.ok (es, ws) => Except.ok (e :: es, ws)
          | Except.error err => Except.error err
      | Except.error err =>
          if caughtByStream err then
            match parse_csv_rows (n + 1) rest with
            | Except.ok (es, ws) => Except.ok (es, warnMessage n err :: ws)
            | Except.error err2 => Except.error err2
          else Except.error err

/-- `parse_csv_stream` on the data rows of a CSV (the `DictReader` has
already consumed the header, so numbering starts at 2). -/
def parse_csv_stream (rows : List (List (String × String))) :
    Except PyError (List UsageEvent × List String) :=
  parse_csv_rows 2 rows

/-! ## renderer.py -/

/-- A column definition: name, width, is-numeric. -/
abbrev Column := String × Nat × Bool

def BOX_TL : String := "┌"
def BOX_TR : String := "┐"
def BOX_BL : String := "└"
def BOX_BR : String := "┘"
def BOX_H : String := "─"
def BOX_V : String := "│"
def BOX_LJ : String := "├"
def BOX_RJ : String := "┤"
def BOX_TJ : String := "┬"
def BOX_BJ : String := "┴"
def BOX_X : String := "┼"

/-- Column layout without the `-b` flag. -/
def COLUMNS_NO_BREAKDOWN : List Column :=
  [("Month", 10, false), ("Models", 35, false), ("Input", 12, true),
   ("Output", 11, true), ("Cache Create", 15, true),
   ("Cache Read", 14, true), ("Total Tokens", 15, true),
   ("Cost (USD)", 13, true)]

/-- Column layout with the `-b` flag (wider Month column). -/
def COLUMNS_WITH_BREAKDOWN : List Column :=
  [("Month", 24, false), ("Models", 35, false), ("Input", 12, true),
   ("Output", 11, true), ("Cache Create", 15, true),
   ("Cache Read", 14, true), ("Total Tokens", 15, true),
   ("Cost (USD)", 13, true)]

/-- Column layout with the `-g` flag (no Models column). -/
def COLUMNS_GROUP_BY_USER : List Column :=
  [("Month", 33, false), ("Input", 12, true), ("Output", 11, true),
   ("Cache Create", 15, true), ("Cache Read", 14, true),
   ("Total Tokens", 15, true), ("Cost (USD)", 13, true)]

/-- `_get_columns`. -/
def get_columns (show_models : Bool) (group_by_user : Bool) : List Column :=
  if group_by_user then COLUMNS_GROUP_BY_USER
  else if show_models then COLUMNS_WITH_BREAKDOWN
  else COLUMNS_NO_BREAKDOWN

/-- Python `s * n` for strings. -/
def sRepeat (s : String) (n : Nat) : String :=
  String.join (List.replicate n s)

/-- Python `f"{v:>{w}}"`: left-pad with spaces to width `w` (no
truncation when already longer). -/
def padLeftTo (v : String) (w : Nat) : String :=
  String.mk (List.replicate (w - v.length) ' ') ++ v

/-- Python `f"{v:<{w}}"`: right-pad with spaces to width `w`. -/
def padRightTo (v : String) (w : Nat) : String :=
  v ++ String.mk (List.replicate (w - v.length) ' ')

/-- `_render_border`. -/
def render_border (position : String) (columns : List Column) : String :=
  let lmr := if position = "top" then (BOX_TL, BOX_TJ, BOX_TR)
             else (BOX_BL, BOX_BJ, BOX_BR)
  lmr.1 ++
    String.intercalate lmr.2.1 (columns.map (fun c => sRepeat BOX_H c.2.1)) ++
    lmr.2.2

/-- `_render_separator`. -/
def render_separator (columns : List Column) : String :=
  BOX_LJ ++
    String.intercalate BOX_X (columns.map (fun c => sRepeat BOX_H c.2.1)) ++
    BOX_RJ

/-- `_render_header`. -/
def render_header (columns : List Column) : String :=
  BOX_V ++
    String.intercalate BOX_V (columns.map (fun c =>
      if c.2.2 then " " ++ padLeftTo c.1 (c.2.1 - 2) ++ " "
      else " " ++ padRightTo c.1 (c.2.1 - 2) ++ " ")) ++
    BOX_V

/-- `_format_row`: numeric non-empty cells right-aligned, the rest
left-aligned, in width minus 2 with one space of padding each side. (The
source zips `columns` and `values` with `strict=True`; every call site
passes matching lengths.) -/
def format_row (values : List String) (columns : List Column) : String :=
  BOX_V ++
    String.intercalate BOX_V ((columns.zip values).map (fun p =>
      if p.1.2.2 ∧ p.2 ≠ "" then " " ++ padLeftTo p.2 (p.1.2.1 - 2) ++ " "
      else " " ++ padRightTo p.2 (p.1.2.1 - 2) ++ " ")) ++
    BOX_V

/-- `sorted(stats.models)`: ascending string sort. -/
def strAscLE (a b : String) : Prop := a ≤ b

instance : DecidableRel strAscLE := fun a b =>
  inferInstanceAs (Decidable (a ≤ b))

instance : IsTotal String strAscLE := ⟨fun a b => le_total a b⟩

instance : IsTrans String strAscLE := ⟨fun _ _ _ h1 h2 => le_trans h1 h2⟩

/-- The relation of `sorted(keys, key=lambda k: d[k].cost, reverse=True)`:
descending by the entry's cost (stable for ties, like Python's sort). -/
def costDescLE (d : List (String × Stats6)) (a b : String) : Prop :=
  Dec.le (lookupStats d b).cost (lookupStats d a).cost

instance (d : List (String × Stats6)) : DecidableRel (costDescLE d) :=
  fun a b =>
    inferInstanceAs (Decidable (Dec.le (lookupStats d b).cost
      (lookupStats d a).cost))

theorem Dec.le_total' (a b : Dec) : Dec.le a b ∨ Dec.le b a :=
  le_total (a.val * (10 : Int) ^ b.scale) (b.val * (10 : Int) ^ a.scale)

theorem Dec.le_trans' {a b c : Dec} (h1 : Dec.le a b) (h2 : Dec.le b c) :
    Dec.le a c := by
  unfold Dec.le at h1 h2 ⊢
  have p : (0 : Int) < 10 ^ b.scale := pow_pos (by norm_num) _
  have h1' := mul_le_mul_of_nonneg_right h1
    (pow_nonneg (by norm_num : (0 : Int) ≤ 10) c.scale)
  have h2' := mul_le_mul_of_nonneg_right h2
    (pow_nonneg (by norm_num : (0 : Int) ≤ 10) a.scale)
  have h1'' : a.val * (10 : Int) ^ c.scale * (10 : Int) ^ b.scale ≤
      b.val * (10 : Int) ^ a.scale * (10 : Int) ^ c.scale := by
    calc a.val * (10 : Int) ^ c.scale * (10 : Int) ^ b.scale
        = a.val * (10 : Int) ^ b.scale * (10 : Int) ^ c.scale := by ring
      _ ≤ b.val * (10 : Int) ^ a.scale * (10 : Int) ^ c.scale := h1'
  have h2'' : b.val * (10 : Int) ^ a.scale * (10 : Int) ^ c.scale ≤
      c.val * (10 : Int) ^ a.scale * (10 : Int) ^ b.scale := by
    calc b.val * (10 : Int) ^ a.scale * (10 : Int) ^ c.scale
        = b.val * (10 : Int) ^ c.scale * (10 : Int) ^ a.scale := by ring
      _ ≤ c.val * (10 : Int) ^ b.scale * (10 : Int) ^ a.scale := h2'
      _ = c.val * (10 : Int) ^ a.scale * (10 : Int) ^ b.scale := by ring
  exact le_of_mul_le_mul_right (le_trans h1'' h2'') p

instance (d : List (String × Stats6)) : IsTotal String (costDescLE d) :=
  ⟨fun a b => by
    unfold costDescLE
    exact Dec.le_total' (lookupStats d b).cost (lookupStats d a).cost⟩

instance (d : List (String × Stats6)) : IsTrans String (costDescLE d) :=
  ⟨fun a b c h1 h2 => by
    unfold costDescLE at h1 h2 ⊢
    exact Dec.le_trans' h2 h1⟩

/-- `_render_data_row`: the month's main row (first sorted model in the
Models cell), plus one continuation row per remaining model. -/
def render_data_row (stats : AggregatedStats) (columns : List Column) :
    List String :=
  let sorted_models := List.insertionSort strAscLE stats.models
  let first_model := match sorted_models with
    | [] => ""
    | m :: _ => "- " ++ m
  let values := [stats.month, first_model,
    format_number stats.input_tokens, format_number stats.output_tokens,
    format_number stats.cache_create, format_number stats.cache_read,
    format_number stats.total_tokens, format_currency stats.cost]
  [format_row values columns] ++
    (sorted_models.drop 1).map (fun m =>
      format_row ((List.replicate columns.length "").set 1 ("- " ++ m))
        columns)

/-- The values of one per-model breakdown sub-row: tree-branch glyph plus
the model's own six accumulators. -/
def breakdownValues (stats : AggregatedStats) (model : String) :
    List String :=
  let model_stat := lookupStats stats.model_stats model
  ["  └─ " ++ model, "",
   format_number model_stat.input_tokens,
   format_number model_stat.output_tokens,
   format_number model_stat.cache_create,
   format_number model_stat.cache_read,
   format_number model_stat.total_tokens,
   format_currency model_stat.cost]

/-- `_render_model_breakdown_rows`: per-model sub-rows sorted by that
model's cost descending, a separator before each. -/
def render_model_breakdown_rows (stats : AggregatedStats)
    (columns : List Column) : List String :=
  let sorted_models := List.insertionSort (costDescLE stats.model_stats)
    (stats.model_stats.map Prod.fst)
  (sorted_models.map (fun model =>
    [render_separator columns, format_row (breakdownValues stats model)
      columns])).flatten

/-- `_render_data_row_grouped`: month row without a Models column. -/
def render_data_row_grouped (stats : AggregatedStats)
    (columns : List Column) : List String :=
  [format_row [stats.month,
    format_number stats.input_tokens, format_number stats.output_tokens,
    format_number stats.cache_create, format_number stats.cache_read,
    format_number stats.total_tokens, format_currency stats.cost] columns]

/-- Abstract stand-in for `hashlib.sha256(email.encode()).hexdigest()[:8]`:
a deterministic hex token derived from the string.  No claim in this
development evaluates it; only the `User-` prefixing and determinism are
observable here. -/
def sha256_hex8 (s : String) : String :=
  String.mk ((Nat.toDigits 16
    (s.toList.foldl (fun a c => (a * 31 + c.toNat) % 4294967296) 7)).take 8)

/-- `_anonymize_email`. -/
def anonymize_email (email : String) : String :=
  "User-" ++ sha256_hex8 email

/-- `_render_user_breakdown_rows`: per-user sub-rows sorted by that user's
cost descending, a separator before each, optionally anonymized. -/
def render_user_breakdown_rows (stats : AggregatedStats)
    (columns : List Column) (anonymize : Bool) : List String :=
  let sorted_users := List.insertionSort (costDescLE stats.user_stats)
    (stats.user_stats.map Prod.fst)
  (sorted_users.map (fun user =>
    let user_stat := lookupStats stats.user_stats user
    let display_name := if anonymize then anonymize_email user else user
    [render_separator columns,
     format_row ["  └─ " ++ display_name,
       format_number user_stat.input_tokens,
       format_number user_stat.output_tokens,
       format_number user_stat.cache_create,
       format_number user_stat.cache_read,
       format_number user_stat.total_tokens,
       format_currency user_stat.cost] columns])).flatten

/-- `_render_total_row`. -/
def render_total_row (total : AggregatedStats) (columns : List Column)
    (group_by_user : Bool) : String :=
  if group_by_user then
    format_row ["Total",
      format_number total.input_tokens, format_number total.output_tokens,
      format_number total.cache_create, format_number total.cache_read,
      format_number total.total_tokens, format_currency total.cost] columns
  else
    format_row ["Total", "",
      format_number total.input_tokens, format_number total.output_tokens,
      format_number total.cache_create, format_number total.cache_read,
      format_number total.total_tokens, format_currency total.cost] columns

/-- `render_table`: full table assembly. -/
def render_table (monthly_stats : List AggregatedStats)
    (total : AggregatedStats) (show_models : Bool) (group_by_user : Bool)
    (anonymize : Bool) : String :=
  let columns := get_columns show_models group_by_user
  let lines : List String :=
    [render_border "top" columns, render_header columns] ++
    (monthly_stats.map (fun stats =>
      render_separator columns ::
      (if group_by_user then
        render_data_row_grouped stats columns ++
          render_user_breakdown_rows stats columns anonymize
      else
        render_data_row stats columns ++
          (if show_models then render_model_breakdown_rows stats columns
           else [])))).flatten ++
    [render_separator columns, render_total_row total columns group_by_user,
     render_border "bottom" columns]
  String.intercalate "\n" lines

/-! ## cli.py -/

/-- The option strings the `analyze` command declares via `typer.Option`:
`--file` or `-f`, `--output` or `-o`, `--breakdown` or `-b` — and nothing else.  (The
renderer's group-by-user and anonymize modes are not exposed; any other
flag makes typer exit with a usage error before the callback runs.) -/
def analyze_option_strings : List String :=
  ["--file", "-f", "--output", "-o", "--breakdown", "-b"]

/-- The rendering call the `analyze` command makes:
`render_table(monthly_stats, total, show_models=breakdown)` with the
remaining keyword flags at their `False` defaults. -/
def analyze_render (monthly_stats : List AggregatedStats)
    (total : AggregatedStats) (breakdown : Bool) : String :=
  render_table monthly_stats total breakdown false false

/-! ## Concrete fixtures -/

/-- One concrete usage event (mirrors the repository's test fixture row:
sonnet model, 500 non-cache input, 300 output, 1000 cache write, 2000
cache read, 3800 total, cost 0.05). -/
def evSonnet : UsageEvent :=
  { date := ⟨2026, 1, 15, 10, 30, 0, 0⟩, user := "alice@example.com",
    kind := "Included", model := "claude-4.5-sonnet", max_mode := false,
    cache_write := 1000, input_no_cache := 500, cache_read := 2000,
    output_tokens := 300, total_tokens := 3800, cost := ⟨5, 2⟩ }

/-! ## Claim theorems -/

/-- Helper: every bucket returned by `aggregate_by_month` came out of the
`by_month` dict. -/
theorem mem_aggregate_iff (events : List UsageEvent) (b : AggregatedStats) :
    b ∈ aggregate_by_month events ↔ b ∈ (aggFold events).map Prod.snd :=
  (aggregate_perm events).mem_iff

/-- **C1** (amended).  Every monthly bucket satisfies the partition
invariant for both maps: its six top-level accumulators equal the
field-wise sum over its `model_stats` values and, independently, over its
`user_stats` values.  The grand total satisfies it for `user_stats` only:
`merge` never fills `model_stats`, so the grand total's `model_stats` is
empty (and its top-level accumulators are the user-map sums). -/
theorem C1_partition_amended (events : List UsageEvent) :
    (∀ b ∈ aggregate_by_month events,
      topStats b = sumSnd b.model_stats ∧ topStats b = sumSnd b.user_stats) ∧
    topStats (compute_grand_total (aggregate_by_month events)) =
      sumSnd (compute_grand_total (aggregate_by_month events)).user_stats ∧
    (compute_grand_total (aggregate_by_month events)).model_stats = [] := by
  have hbuckets : ∀ b ∈ aggregate_by_month events,
      topStats b = sumSnd b.model_stats ∧ topStats b = sumSnd b.user_stats := by
    intro b hb
    rw [mem_aggregate_iff] at hb
    obtain ⟨p, hp, rfl⟩ := List.mem_map.mp hb
    exact bucketPartition_aggFold events p hp
  refine ⟨hbuckets, ?_, ?_⟩
  · unfold compute_grand_total
    rw [topStats_foldl_merge, user_sum_foldl_merge, topStats_mk]
    have hmaps : (aggregate_by_month events).map topStats =
        (aggregate_by_month events).map (fun b => sumSnd b.user_stats) :=
      List.map_congr_left (fun b hb => (hbuckets b hb).2)
    rw [hmaps]
    rfl
  · unfold compute_grand_total
    rw [model_stats_foldl_merge]
    rfl

/-- **C1** fails as stated: for the single-event run below, the grand
total's top-level accumulators (3800 total tokens) differ from the sum
over its (empty) `model_stats` map, because `merge` does not fold the
monthly buckets' per-model maps into the total. -/
theorem C1_counterexample :
    ¬ (topStats (compute_grand_total (aggregate_by_month [evSonnet])) =
      sumSnd (compute_grand_total
        (aggregate_by_month [evSonnet])).model_stats) := by
  decide

/-- **C2**.  The grand total of the monthly aggregation carries exactly
the field-wise sums over the events, and in particular the monthly
buckets' `total_tokens` sum to the events' `total_tokens`. -/
theorem C2_conservation (events : List UsageEvent) :
    topStats (compute_grand_total (aggregate_by_month events)) =
      (events.map statsOfEvent).sum ∧
    ((aggregate_by_month events).map AggregatedStats.total_tokens).sum =
      (events.map UsageEvent.total_tokens).sum := by
  have htop : topStats (compute_grand_total (aggregate_by_month events)) =
      (events.map statsOfEvent).sum := by
    unfold compute_grand_total
    rw [topStats_foldl_merge, topStats_mk, sum_topStats_aggregate]
    exact zero_add _
  refine ⟨htop, ?_⟩
  have h1 : ((aggregate_by_month events).map AggregatedStats.total_tokens) =
      ((aggregate_by_month events).map topStats).map Stats6.total_tokens := by
    rw [List.map_map]
    rfl
  rw [h1, ← sum_total_tokens, sum_topStats_aggregate, sum_total_tokens,
    List.map_map]
  rfl

/-- **C3** (amended).  `merge` leaves `model_stats` untouched, adds the
six top-level accumulators, and folds the other bucket's per-user map in
entry-wise — but it NOT ONLY merges `user_stats`: it also unions the other
bucket's model set into `self.models` (`self.models.update(other.models)`).
The per-user part is stated both as a map-wide sum and entry-wise (for the
duplicate-free key lists Python dicts guarantee). -/
theorem C3_merge_amended (a b : AggregatedStats) :
    (a.merge b).model_stats = a.model_stats ∧
    (∀ m, m ∈ (a.merge b).models ↔ m ∈ a.models ∨ m ∈ b.models) ∧
    topStats (a.merge b) = topStats a + topStats b ∧
    sumSnd (a.merge b).user_stats =
      sumSnd a.user_stats + sumSnd b.user_stats ∧
    ((b.user_stats.map Prod.fst).Nodup →
      ∀ u, lookupStats (a.merge b).user_stats u =
        lookupStats a.user_stats u + lookupStats b.user_stats u) := by
  refine ⟨model_stats_merge a b, mem_models_merge a b, topStats_merge a b,
    user_stats_merge_sum a b, fun hnodup u => ?_⟩
  exact lookupStats_foldl_bump b.user_stats hnodup a.user_stats u

/-- Witness for C3 at concrete buckets: the per-user entry-wise merge with
its duplicate-free hypothesis discharged. -/
theorem C3_merge_amended_witness :
    (((mkAggregatedStats "2026-02").add evSonnet).user_stats.map
      Prod.fst).Nodup ∧
    lookupStats (((mkAggregatedStats "Total").merge
        ((mkAggregatedStats "2026-02").add evSonnet)).user_stats)
      "alice@example.com" =
      lookupStats (mkAggregatedStats "Total").user_stats
        "alice@example.com" +
      lookupStats ((mkAggregatedStats "2026-02").add evSonnet).user_stats
        "alice@example.com" :=
  ⟨by decide,
    (C3_merge_amended (mkAggregatedStats "Total")
      ((mkAggregatedStats "2026-02").add evSonnet)).2.2.2.2 (by decide)
      "alice@example.com"⟩

/-- **C3** fails as stated: merging a bucket whose model set is `{"m"}`
into a bucket with an empty model set changes the target's model set (the
claim says the model set is left unchanged). -/
theorem C3_counterexample :
    ¬ (((mkAggregatedStats "a").merge
        { mkAggregatedStats "b" with models := ["m"] }).models =
      (mkAggregatedStats "a").models) := by
  decide

/-- **C8**.  `aggregate_by_month` returns its buckets strictly sorted
ascending by the month label, and the labels are exactly the distinct
`month_key` values of the input events (one bucket per distinct key). -/
theorem C8_sorted_unique (events : List UsageEvent) :
    (aggregate_by_month events).Pairwise (fun a b => a.month < b.month) ∧
    (∀ k, k ∈ (aggregate_by_month events).map AggregatedStats.month ↔
      ∃ e ∈ events, e.month_key = k) := by
  have hkeyed := dictKeyed_aggFold events
  have hmonths_eq : ((aggFold events).map Prod.snd).map
      AggregatedStats.month = (aggFold events).map Prod.fst := by
    rw [List.map_map]
    exact List.map_congr_left (fun p hp => hkeyed.2 p hp)
  have hsorted : (aggregate_by_month events).Pairwise monthLE :=
    List.sorted_insertionSort monthLE _
  have hperm_months : ((aggregate_by_month events).map
      AggregatedStats.month).Perm ((aggFold events).map Prod.fst) := by
    have h := (aggregate_perm events).map AggregatedStats.month
    rwa [hmonths_eq] at h
  have hnodup : ((aggregate_by_month events).map
      AggregatedStats.month).Nodup := hperm_months.nodup_iff.mpr hkeyed.1
  constructor
  · have hp2 : (aggregate_by_month events).Pairwise
        (fun a b => a.month ≠ b.month) := List.pairwise_map.mp hnodup
    exact (hsorted.and hp2).imp (fun h => lt_of_le_of_ne h.1 h.2)
  · intro k
    rw [hperm_months.mem_iff, keys_aggFold]

/-- C9 scenario fixture: opus event costing 0.50 in 2026-01. -/
def evOpus : UsageEvent :=
  { date := ⟨2026, 1, 10, 9, 0, 0, 0⟩, user := "alice@example.com",
    kind := "Included", model := "claude-4.5-opus", max_mode := false,
    cache_write := 10, input_no_cache := 20, cache_read := 30,
    output_tokens := 40, total_tokens := 100, cost := ⟨50, 2⟩ }

/-- C9 scenario fixture: sonnet event costing 0.25 in 2026-01. -/
def evSonnet25 : UsageEvent :=
  { date := ⟨2026, 1, 11, 9, 0, 0, 0⟩, user := "alice@example.com",
    kind := "Included", model := "claude-4.5-sonnet", max_mode := false,
    cache_write := 10, input_no_cache := 20, cache_read := 30,
    output_tokens := 40, total_tokens := 100, cost := ⟨25, 2⟩ }

/-- C9 scenario fixture: haiku event costing 0.05 in 2026-01. -/
def evHaiku05 : UsageEvent :=
  { date := ⟨2026, 1, 12, 9, 0, 0, 0⟩, user := "bob@example.com",
    kind := "Included", model := "claude-4.5-haiku", max_mode := false,
    cache_write := 10, input_no_cache := 20, cache_read := 30,
    output_tokens := 40, total_tokens := 100, cost := ⟨5, 2⟩ }

/-- The single 2026-01 bucket of the C9 scenario. -/
def exampleBucket : AggregatedStats :=
  (aggregate_by_month [evOpus, evSonnet25, evHaiku05]).headD
    (mkAggregatedStats "")

/-- **C9**.  In model-breakdown mode the per-month sub-rows are one per
model of that month, ordered by that model's cost descending; each sub-row
is preceded by a row separator and renders the tree-branch glyph plus that
model's own six accumulators (`breakdownValues`).  On the scenario bucket
(opus 0.50, sonnet 0.25, haiku 0.05) the order is opus, sonnet, haiku. -/
theorem C9_breakdown_order :
    (∀ (stats : AggregatedStats) (columns : List Column),
      render_model_breakdown_rows stats columns =
        ((List.insertionSort (costDescLE stats.model_stats)
          (stats.model_stats.map Prod.fst)).map (fun model =>
            [render_separator columns,
             format_row (breakdownValues stats model) columns])).flatten ∧
      (List.insertionSort (costDescLE stats.model_stats)
        (stats.model_stats.map Prod.fst)).Perm
          (stats.model_stats.map Prod.fst) ∧
      (List.insertionSort (costDescLE stats.model_stats)
        (stats.model_stats.map Prod.fst)).Pairwise (fun m1 m2 =>
          Dec.le (lookupStats stats.model_stats m2).cost
            (lookupStats stats.model_stats m1).cost)) ∧
    List.insertionSort (costDescLE exampleBucket.model_stats)
      (exampleBucket.model_stats.map Prod.fst) =
      ["opus-4-5", "sonnet-4-5", "haiku-4-5"] ∧
    render_model_breakdown_rows exampleBucket COLUMNS_WITH_BREAKDOWN =
      [render_separator COLUMNS_WITH_BREAKDOWN,
       format_row (breakdownValues exampleBucket "opus-4-5")
         COLUMNS_WITH_BREAKDOWN,
       render_separator COLUMNS_WITH_BREAKDOWN,
       format_row (breakdownValues exampleBucket "sonnet-4-5")
         COLUMNS_WITH_BREAKDOWN,
       render_separator COLUMNS_WITH_BREAKDOWN,
       format_row (breakdownValues exampleBucket "haiku-4-5")
         COLUMNS_WITH_BREAKDOWN] := by
  refine ⟨fun stats columns => ⟨rfl, List.perm_insertionSort _ _, ?_⟩,
    by decide, by decide⟩
  exact List.sorted_insertionSort (costDescLE stats.model_stats) _

/-- **C10**.  When `render_table` is called with both `show_models` and
`group_by_user` set, `group_by_user` wins: `_get_columns` checks it first
(no Models column) and the row loop's `if group_by_user` branch never
consults `show_models`, so the output is identical to
`show_models=False, group_by_user=True` for any inputs. -/
theorem C10_group_by_user_precedence (monthly_stats : List AggregatedStats)
    (total : AggregatedStats) (anonymize : Bool) :
    render_table monthly_stats total true true anonymize =
      render_table monthly_stats total false true anonymize := rfl

/-- **C4** fails against the code: the `analyze` command only declares the
`--file` or `-f`, `--output` or `-o` and `--breakdown` or `-b` options —
no group-by-user flag and no anonymize flag exist at the CLI
(`render_table` is called with those modes at their `False` defaults), so
the documented mutual-exclusion and requires checks cannot fire; typer
instead rejects `-g` or `-a` as unknown options.  The repository's own
integration tests expect the flags and their messages, so this is a code
bug, not a spec error. -/
theorem C4_cli_flags_missing :
    ("--group-by-user" ∉ analyze_option_strings) ∧
    ("-g" ∉ analyze_option_strings) ∧
    ("--anonymize" ∉ analyze_option_strings) ∧
    ("-a" ∉ analyze_option_strings) ∧
    (∀ (ms : List AggregatedStats) (t : AggregatedStats) (b : Bool),
      analyze_render ms t b = render_table ms t b false false) :=
  ⟨by decide, by decide, by decide, by decide, fun _ _ _ => rfl⟩

/-- A complete, valid CSV data row (as a `DictReader` mapping). -/
def csvRowValid : List (String × String) :=
  [("Date", "2026-01-15T10:30:00.000Z"), ("User", "alice@example.com"),
   ("Kind", "Included"), ("Model", "claude-4.5-sonnet"), ("Max Mode", "No"),
   ("Input (w/ Cache Write)", "1000"), ("Input (w/o Cache Write)", "500"),
   ("Cache Read", "2000"), ("Output Tokens", "300"),
   ("Total Tokens", "3800"), ("Cost", "0.05")]

/-- Replace one column's raw value in a row. -/
def setCol (row : List (String × String)) (k v : String) :
    List (String × String) :=
  row.map (fun p => if p.1 = k then (p.1, v) else p)

/-- **C7**: how the stream driver actually behaves.  A row whose
`Total Tokens` is not numeric raises `ValueError`, which IS caught: the
row is skipped with a warning naming file row 3 and parsing continues,
exactly as the claim says.  But a row whose `Cost` cannot be converted
raises `decimal.InvalidOperation` — an `ArithmeticError`, absent from the
`except (ValueError, KeyError)` clause — so that single malformed row
aborts the whole batch and no events are returned, contradicting the
claim (and the spec's own error-handling design).  The first conjunct
evaluates the aborting run, the second the claimed skip behaviour on a
caught failure. -/
theorem C7_invalid_cost_aborts_batch :
    parse_csv_stream [csvRowValid, setCol csvRowValid "Cost" "abc"] =
      Except.error (PyError.invalidOperation "ConversionSyntax: abc") ∧
    parse_csv_stream
        [csvRowValid, setCol csvRowValid "Total Tokens" "not_a_number"] =
      Except.ok ([evSonnet],
        ["Warning: Skipping row 3: invalid literal for int: not_a_number"]) ∧
    parse_row csvRowValid = Except.ok evSonnet := by
  refine ⟨by decide, by decide, by decide⟩

/-- The four possible outcomes of one normalization pass. -/
theorem normalized_model_cases (m : String) :
    normalized_model m = "haiku-4-5" ∨ normalized_model m = "opus-4-5" ∨
    normalized_model m = "sonnet-4-5" ∨ normalized_model m = "gpt-5-2" ∨
    normalized_model m = m := by
  simp only [normalized_model]
  split_ifs <;> simp

/-- **C6** (amended).  Normalization is idempotent; the rules fire in the
fixed order haiku-substring, opus-substring, sonnet-substring, exact
`gpt-5.2`, first match winning, and all matching happens on the lowercased
name (so the RULES are case-insensitive); a name matching no rule passes
through with its original spelling — which is why normalization as a
whole function is NOT case-insensitive on unknown names. -/
theorem C6_normalization_amended (m : String) :
    normalized_model (normalized_model m) = normalized_model m ∧
    (inStr "haiku" (strLower m) = true →
      normalized_model m = "haiku-4-5") ∧
    (inStr "haiku" (strLower m) = false →
      inStr "opus" (strLower m) = true →
      normalized_model m = "opus-4-5") ∧
    (inStr "haiku" (strLower m) = false →
      inStr "opus" (strLower m) = false →
      inStr "sonnet" (strLower m) = true →
      normalized_model m = "sonnet-4-5") ∧
    (inStr "haiku" (strLower m) = false →
      inStr "opus" (strLower m) = false →
      inStr "sonnet" (strLower m) = false →
      strLower m = "gpt-5.2" → normalized_model m = "gpt-5-2") ∧
    (inStr "haiku" (strLower m) = false →
      inStr "opus" (strLower m) = false →
      inStr "sonnet" (strLower m) = false →
      strLower m ≠ "gpt-5.2" → normalized_model m = m) ∧
    normalized_model "CLAUDE-4.5-SONNET" = "sonnet-4-5" ∧
    normalized_model "claude-4.5-sonnet" = "sonnet-4-5" := by
  refine ⟨?_, ?_, ?_, ?_, ?_, ?_, by decide, by decide⟩
  · rcases normalized_model_cases m with h | h | h | h | h
    · rw [h]; decide
    · rw [h]; decide
    · rw [h]; decide
    · rw [h]; decide
    · rw [h]; exact h
  · intro h1
    simp [normalized_model, h1]
  · intro h1 h2
    simp [normalized_model, h1, h2]
  · intro h1 h2 h3
    simp [normalized_model, h1, h2, h3]
  · intro h1 h2 h3 h4
    simp [normalized_model, h1, h2, h3, h4]
    decide
  · intro h1 h2 h3 h4
    simp [normalized_model, h1, h2, h3, h4]

/-- Witness for C6 at concrete names: the haiku rule fires on a lowercased
match. -/
theorem C6_normalization_amended_witness :
    inStr "haiku" (strLower "CLAUDE-4.5-HAIKU") = true ∧
    normalized_model "CLAUDE-4.5-HAIKU" = "haiku-4-5" :=
  ⟨by decide,
    (C6_normalization_amended "CLAUDE-4.5-HAIKU").2.1 (by decide)⟩

/-- **C6** fails as stated: normalization is not case-insensitive on names
matching no rule — `"FOO"` and `"foo"` both pass through unchanged, with
different results. -/
theorem C6_counterexample :
    normalized_model "FOO" ≠ normalized_model "foo" := by decide

/-- `decCents` on a coarse scale is exact. -/
theorem decCents_small (v : Dec) (h : v.scale ≤ 2) :
    decCents v = v.val * (10 : Int) ^ (2 - v.scale) := by
  simp [decCents, h]

/-- `decCents` on a fine scale, with the lets unfolded. -/
theorem decCents_big (v : Dec) (h : ¬v.scale ≤ 2) :
    decCents v =
      if 2 * (v.val % (10 : Int) ^ (v.scale - 2)) <
          (10 : Int) ^ (v.scale - 2) then
        v.val / (10 : Int) ^ (v.scale - 2)
      else if (10 : Int) ^ (v.scale - 2) <
          2 * (v.val % (10 : Int) ^ (v.scale - 2)) then
        v.val / (10 : Int) ^ (v.scale - 2) + 1
      else if (v.val / (10 : Int) ^ (v.scale - 2)) % 2 = 0 then
        v.val / (10 : Int) ^ (v.scale - 2)
      else v.val / (10 : Int) ^ (v.scale - 2) + 1 := by
  simp [decCents, h]

theorem decCents_nonneg (v : Dec) (h : 0 ≤ v.val) : 0 ≤ decCents v := by
  by_cases hs : v.scale ≤ 2
  · rw [decCents_small v hs]
    exact mul_nonneg h (by positivity)
  · have hd : (0 : Int) < (10 : Int) ^ (v.scale - 2) := by positivity
    have hq : 0 ≤ v.val / (10 : Int) ^ (v.scale - 2) :=
      Int.ediv_nonneg h hd.le
    rw [decCents_big v hs]
    split_ifs <;> linarith

/-- The rounding behaviour of `decCents`: the rounded cents are within
half a cent of `100 ×` the value (`2·|error·10^scale| ≤ 10^scale`), and an
exact half-cent tie lands on the even candidate. -/
theorem decCents_char (v : Dec) :
    2 * |100 * v.val - decCents v * (10 : Int) ^ v.scale| ≤
      (10 : Int) ^ v.scale ∧
    (2 * |100 * v.val - decCents v * (10 : Int) ^ v.scale| =
        (10 : Int) ^ v.scale → decCents v % 2 = 0) := by
  by_cases hs : v.scale ≤ 2
  · have hpow : v.val * (10 : Int) ^ (2 - v.scale) * (10 : Int) ^ v.scale =
        100 * v.val := by
      rw [mul_assoc, ← pow_add]
      have he : 2 - v.scale + v.scale = 2 := by omega
      rw [he]
      ring
    have hzero : 100 * v.val -
        v.val * (10 : Int) ^ (2 - v.scale) * (10 : Int) ^ v.scale = 0 := by
      rw [hpow]
      ring
    rw [decCents_small v hs, hzero]
    have hp : (0 : Int) < (10 : Int) ^ v.scale := by positivity
    simp only [abs_zero, mul_zero]
    exact ⟨hp.le, fun h => absurd h.symm (ne_of_gt hp)⟩
  · have hd : (0 : Int) < (10 : Int) ^ (v.scale - 2) := by positivity
    have h100 : (10 : Int) ^ v.scale = 100 * (10 : Int) ^ (v.scale - 2) := by
      have he : v.scale = 2 + (v.scale - 2) := by omega
      conv_lhs => rw [he]
      rw [pow_add]
      norm_num
    rw [decCents_big v hs, h100]
    set d := (10 : Int) ^ (v.scale - 2) with hdef
    set q := v.val / d with hqdef
    set r := v.val % d with hrdef
    have hval : v.val = d * q + r := (Int.ediv_add_emod v.val d).symm
    have hr0 : 0 ≤ r := Int.emod_nonneg v.val (ne_of_gt hd)
    have hrd : r < d := Int.emod_lt_of_pos v.val hd
    rw [hval]
    split_ifs with hlt hgt heven
    · have hx : 100 * (d * q + r) - q * (100 * d) = 100 * r := by ring
      rw [hx, abs_of_nonneg (by linarith : (0 : Int) ≤ 100 * r)]
      exact ⟨by linarith, fun h => by linarith⟩
    · have hx : 100 * (d * q + r) - (q + 1) * (100 * d) =
          -(100 * (d - r)) := by ring
      rw [hx, abs_neg,
        abs_of_nonneg (by linarith : (0 : Int) ≤ 100 * (d - r))]
      exact ⟨by linarith, fun h => by linarith⟩
    · have htie : 2 * r = d := by linarith
      have hx : 100 * (d * q + r) - q * (100 * d) = 100 * r := by ring
      rw [hx, abs_of_nonneg (by linarith : (0 : Int) ≤ 100 * r)]
      exact ⟨by linarith, fun _ => heven⟩
    · have htie : 2 * r = d := by linarith
      have hx : 100 * (d * q + r) - (q + 1) * (100 * d) =
          -(100 * (d - r)) := by ring
      rw [hx, abs_neg,
        abs_of_nonneg (by linarith : (0 : Int) ≤ 100 * (d - r))]
      refine ⟨by linarith, fun _ => ?_⟩
      omega

/-- **C5** (amended).  `format_currency` renders the currency symbol,
thousands grouping and exactly two decimal digits — and on the claim's
examples gives `$0.00`, `$2.00`, `$1,234.56` — but the rounding at the
second decimal place is ROUND_HALF_EVEN (the `Decimal` formatting
default), not half-up: the rounded cents are the nearest integer to
`100 ×` value with ties broken to the even candidate. -/
theorem C5_currency_amended :
    format_currency ⟨0, 0⟩ = "$0.00" ∧
    format_currency ⟨1999, 3⟩ = "$2.00" ∧
    format_currency ⟨123456, 2⟩ = "$1,234.56" ∧
    (∀ v : Dec, 0 ≤ v.val →
      format_currency v =
        "$" ++ format_number ((decCents v).toNat / 100) ++ "." ++
          padZeros 2 ((decCents v).toNat % 100)) ∧
    (∀ v : Dec,
      2 * |100 * v.val - decCents v * (10 : Int) ^ v.scale| ≤
        (10 : Int) ^ v.scale ∧
      (2 * |100 * v.val - decCents v * (10 : Int) ^ v.scale| =
          (10 : Int) ^ v.scale → decCents v % 2 = 0)) := by
  refine ⟨by decide, by decide, by decide, fun v h => ?_, decCents_char⟩
  have hnn : 0 ≤ decCents v := decCents_nonneg v h
  have hnlt : ¬decCents v < 0 := not_lt.mpr hnn
  have habs : (decCents v).natAbs = (decCents v).toNat := by omega
  simp [format_currency, hnlt, habs]

/-- Witness for C5 at the half-cent tie 0.125: its non-negativity
hypothesis discharged, the rendering shape instantiated. -/
theorem C5_currency_amended_witness :
    (0 : Int) ≤ (Dec.mk 125 3).val ∧
    format_currency ⟨125, 3⟩ =
      "$" ++ format_number ((decCents ⟨125, 3⟩).toNat / 100) ++ "." ++
        padZeros 2 ((decCents ⟨125, 3⟩).toNat % 100) :=
  ⟨by decide, C5_currency_amended.2.2.2.1 ⟨125, 3⟩ (by decide)⟩

/-- **C5** fails as stated: half-up rounding of 0.125 would give `$0.13`,
but `format_currency` (like Python's `Decimal` formatting) rounds the tie
to even and renders `$0.12`. -/
theorem C5_counterexample :
    format_currency ⟨125, 3⟩ = "$0.12" ∧
    format_currency ⟨125, 3⟩ ≠ "$0.13" := by
  refine ⟨by decide, by decide⟩

/-- Witness for C1 on a single-event run: the (only) monthly bucket is a
member and satisfies both partition equalities. -/
theorem C1_partition_amended_witness :
    ((aggregate_by_month [evSonnet]).headD (mkAggregatedStats "") ∈
      aggregate_by_month [evSonnet]) ∧
    (topStats ((aggregate_by_month [evSonnet]).headD
        (mkAggregatedStats "")) =
      sumSnd ((aggregate_by_month [evSonnet]).headD
        (mkAggregatedStats "")).model_stats ∧
     topStats ((aggregate_by_month [evSonnet]).headD
        (mkAggregatedStats "")) =
      sumSnd ((aggregate_by_month [evSonnet]).headD
        (mkAggregatedStats "")).user_stats) :=
  ⟨by decide, (C1_partition_amended [evSonnet]).1 _ (by decide)⟩
